import Mathlib

set_option maxHeartbeats 1000000

/- Shallow embedding of the gphotosuploader upload pipeline: the debounced
filesystem-event coalescer (handleFileChange and the timer-fire callback in
main.go), the retry-failed startup scan (reuploadFailedFiles), the outcome
reporter loop (handleUploaderEvents), and the worker-pool processing and
status store, the latter two modelled from the specification because the
utils and models packages are not part of the available sources. -/

/-- Modelled from the spec: the FileRecord status enum of the models package
(not among the available sources); spec section 3 lists Pending, Success,
Failed, Ignored. -/
inductive FileStatus where
  | pending
  | success
  | failed
  | ignored
deriving DecidableEq

/-- Filesystem notification operations, after fsnotify.Op as used by
handleFileChange (Create, Write, Remove, Rename, Chmod). -/
inductive FsOp where
  | create
  | write
  | remove
  | rename
  | chmod
deriving DecidableEq

/-- A filesystem notification: a path and an operation, after fsnotify.Event. -/
structure FsEvent where
  name : String
  op : FsOp
deriving DecidableEq

/-- One time.Timer created by time.AfterFunc: the absolute time at which its
callback runs, and whether it is still armed (Stop returns true exactly when
the timer is armed; after firing or stopping it stays in the timers map with
armed = false). -/
structure TimerEntry where
  deadline : Nat
  armed : Bool
deriving DecidableEq

/-- State touched by the event coalescer: the global timers map of main.go
(as an association list), the persistent file records (the gorm-backed store),
the set of watch roots added to the fsnotify watcher, the upload signals
emitted so far (time of emission and path, one per EnqueueUpload call made by
a timer callback), and the store deletions performed so far (one entry per
executed delete in the remove/rename branch). -/
structure CoState where
  timers : List (String × TimerEntry)
  store : List (String × FileStatus)
  watches : List String
  uploads : List (Nat × String)
  deletions : List String
deriving DecidableEq

/-- Static environment of a run: the filesystem (stat returns none when the
path does not exist, some isDir otherwise), the recursive directory walk used
by startToWatch (entries of the subtree rooted at a path, each with its isDir
flag), the configured ignore patterns (each pattern a predicate on paths, as
in checkIgnore), the watchRecursively flag and the eventDelay duration. -/
structure CoEnv where
  stat : String → Option Bool
  subtree : String → List (String × Bool)
  patternsToIgnore : List (String → Bool)
  watchRecursively : Bool
  eventDelay : Nat

/-- checkIgnore from main.go: the path is ignored when some configured
pattern matches it. -/
def checkIgnore (env : CoEnv) (path : String) : Bool :=
  env.patternsToIgnore.any (fun pat => pat path)

/-- Lookup in the timers association list (the Go map read
timers[event.Name]). -/
def lookupTimer : List (String × TimerEntry) → String → Option TimerEntry
  | [], _ => none
  | (q, e) :: rest, p => if q = p then some e else lookupTimer rest p

/-- Write to the timers association list (the Go map write
timers[event.Name] = timer, or an in-place Reset/Stop of the stored timer). -/
def setTimer : List (String × TimerEntry) → String → TimerEntry → List (String × TimerEntry)
  | [], p, e => [(p, e)]
  | (q, e0) :: rest, p, e => if q = p then (p, e) :: rest else (q, e0) :: setTimer rest p e

/-- Lookup of a file record by path in the status store. -/
def lookupStatus : List (String × FileStatus) → String → Option FileStatus
  | [], _ => none
  | (q, st) :: rest, p => if q = p then some st else lookupStatus rest p

/-- Net effect on the store of the FirstOrCreate-then-Unscoped-Delete pair in
the remove/rename branch of handleFileChange: afterwards no record for the
path remains. -/
def deleteRecord : List (String × FileStatus) → String → List (String × FileStatus)
  | [], _ => []
  | (q, st) :: rest, p => if q = p then deleteRecord rest p else (q, st) :: deleteRecord rest p

/-- startToWatch from main.go: when watchRecursively is set, walk the subtree
of the path and add a watch for every directory that no ignore pattern
matches; otherwise add a watch for the path itself unconditionally. -/
def startToWatch (env : CoEnv) (watches : List String) (filePath : String) : List String :=
  if env.watchRecursively then
    watches ++ ((env.subtree filePath).filter
      (fun e => e.2 && !(checkIgnore env e.1))).map (fun e => e.1)
  else
    watches ++ [filePath]

/-- Body of the time.AfterFunc callback in handleFileChange: stat the path;
on error (path gone) only log; if it is a non-directory that no ignore
pattern matches, enqueue an upload (recorded with the fire time); otherwise,
if watchRecursively is set, call startToWatch on the path. -/
def fireBody (env : CoEnv) (s : CoState) (p : String) (t : Nat) : CoState :=
  match env.stat p with
  | none => s
  | some isDir =>
    if !isDir && !(checkIgnore env p) then
      { s with uploads := s.uploads ++ [(t, p)] }
    else if env.watchRecursively then
      { s with watches := startToWatch env s.watches p }
    else
      s

/-- Run every armed timer whose deadline has been reached by time now: its
callback executes at its deadline and the timer becomes expired (not armed)
while staying in the map. Returns the updated timers list and state. -/
def fireDueList (env : CoEnv) (now : Nat) :
    List (String × TimerEntry) → CoState → List (String × TimerEntry) × CoState
  | [], s => ([], s)
  | (p, e) :: rest, s =>
    if e.armed = true ∧ e.deadline ≤ now then
      let s1 := fireBody env s p e.deadline
      let (rest2, s2) := fireDueList env now rest s1
      ((p, { e with armed := false }) :: rest2, s2)
    else
      let (rest2, s2) := fireDueList env now rest s
      ((p, e) :: rest2, s2)

/-- Fire all timers due at time now. -/
def fireDue (env : CoEnv) (now : Nat) (s : CoState) : CoState :=
  let (ts, s1) := fireDueList env now s.timers s
  { s1 with timers := ts }

def isDelete (op : FsOp) : Bool :=
  op == FsOp.remove || op == FsOp.rename

/-- handleFileChange from main.go, one notification at time now. If the
timers map has an entry for the path, Stop it (cancelled is true exactly when
it was armed) and, when cancelled and the operation is neither Remove nor
Rename, Reset it to now + eventDelay; otherwise it stays stopped. If no entry
exists and the operation is neither Remove nor Rename, create an armed timer.
Otherwise (no entry, Remove or Rename): unless the path is ignored, perform
FirstOrCreate followed by an unscoped Delete of the record, so the record is
gone, and one store deletion is logged. -/
def handleFileChange (env : CoEnv) (now : Nat) (event : FsEvent) (s : CoState) : CoState :=
  match lookupTimer s.timers event.name with
  | some timer =>
    if timer.armed = true ∧ isDelete event.op = false then
      { s with timers := setTimer s.timers event.name ⟨now + env.eventDelay, true⟩ }
    else
      { s with timers := setTimer s.timers event.name ⟨timer.deadline, false⟩ }
  | none =>
    if isDelete event.op = false then
      { s with timers := setTimer s.timers event.name ⟨now + env.eventDelay, true⟩ }
    else if checkIgnore env event.name then
      s
    else
      { s with store := deleteRecord s.store event.name,
               deletions := s.deletions ++ [event.name] }

/-- One step of the watch loop at the arrival time of a notification: first
any timer whose deadline already passed fires (its callback ran at its
deadline, before the new notification), then handleFileChange processes the
notification. -/
def coStep (env : CoEnv) (s : CoState) (te : Nat × FsEvent) : CoState :=
  handleFileChange env te.1 te.2 (fireDue env te.1 s)

/-- Run every still-armed timer (the end of a run: every pending timer
eventually fires). -/
def flushList (env : CoEnv) :
    List (String × TimerEntry) → CoState → List (String × TimerEntry) × CoState
  | [], s => ([], s)
  | (p, e) :: rest, s =>
    if e.armed = true then
      let s1 := fireBody env s p e.deadline
      let (rest2, s2) := flushList env rest s1
      ((p, { e with armed := false }) :: rest2, s2)
    else
      let (rest2, s2) := flushList env rest s
      ((p, e) :: rest2, s2)

def flushTimers (env : CoEnv) (s : CoState) : CoState :=
  let (ts, s1) := flushList env s.timers s
  { s1 with timers := ts }

def initState : CoState := ⟨[], [], [], [], []⟩

/-- Process a time-ordered list of notifications starting from a given state,
then let every remaining timer fire. -/
def runTraceFrom (env : CoEnv) (s0 : CoState) (trace : List (Nat × FsEvent)) : CoState :=
  flushTimers env (trace.foldl (coStep env) s0)

def runTrace (env : CoEnv) (trace : List (Nat × FsEvent)) : CoState :=
  runTraceFrom env initState trace

/-- One of the four channel receipts the select statement of
handleUploaderEvents can consume: a completed upload, an ignored upload, an
upload error, or the stop signal from the orchestrator. -/
inductive ReporterInput where
  | completed (info : String)
  | ignoredUpload (info : String)
  | uploadError (msg : String)
  | stop
deriving DecidableEq

/-- Counters and acknowledgements owned by the outcome-reporter loop: the
three statistics of main.go and the number of acknowledgement sends the loop
has performed on the exiting channel. -/
structure ReporterState where
  uploadedFilesCount : Nat
  ignoredCount : Nat
  errorsCount : Nat
  acks : Nat
deriving DecidableEq

/-- handleUploaderEvents from main.go over the merged sequence of channel
receipts its select statement performs. In the stop case the code sends the
acknowledgement and then executes a break statement; in Go, break inside a
select terminates only the select, not the enclosing for, so the loop
proceeds to its next iteration and keeps consuming inputs (contrast
handleFileSystemEvents, whose stop case uses return). -/
def handleUploaderEvents : ReporterState → List ReporterInput → ReporterState
  | s, [] => s
  | s, ReporterInput.completed _ :: rest =>
    handleUploaderEvents { s with uploadedFilesCount := s.uploadedFilesCount + 1 } rest
  | s, ReporterInput.ignoredUpload _ :: rest =>
    handleUploaderEvents { s with ignoredCount := s.ignoredCount + 1 } rest
  | s, ReporterInput.uploadError _ :: rest =>
    handleUploaderEvents { s with errorsCount := s.errorsCount + 1 } rest
  | s, ReporterInput.stop :: rest =>
    handleUploaderEvents { s with acks := s.acks + 1 } rest

/-- Modelled from the spec: listNotSuccess of the Status Store (spec section
4.1), the query reuploadFailedFiles issues through gorm against the models
package, neither of which is among the available sources: all paths whose
status differs from Success. -/
def listNotSuccess (store : List (String × FileStatus)) : List String :=
  (store.filter (fun r => decide (r.2 ≠ FileStatus.success))).map (fun r => r.1)

/-- reuploadFailedFiles from main.go: when the reupload flag is set, every
path returned by the not-Success query is enqueued into the worker pool, in
order; the store is only read. Returns the enqueued queue and the store. -/
def reuploadFailedFiles (reuploadFailed : Bool) (store : List (String × FileStatus))
    (queue : List String) : List String × List (String × FileStatus) :=
  if reuploadFailed then (queue ++ listNotSuccess store, store) else (queue, store)

/-- Modelled from the spec: environment of the worker pool (spec section
4.3); the utils.ConcurrentUploader implementation is not among the available
sources. fileExists and ignore are the step-1 eligibility checks, uploadOk
the result of the external Upload Operation for a path. -/
structure PoolEnv where
  fileExists : String → Bool
  ignore : String → Bool
  uploadOk : String → Bool

/-- Outcome signal emitted for one processed path: completed, ignored, or
errored. -/
inductive UploadOutcome where
  | completed
  | ignored
  | errored
deriving DecidableEq

/-- Modelled from the spec: upsertPending of the Status Store (spec section
4.1): creates the record with status Pending if absent, does not change the
status of an existing record. -/
def upsertPending (store : List (String × FileStatus)) (p : String) :
    List (String × FileStatus) :=
  match lookupStatus store p with
  | some _ => store
  | none => store ++ [(p, FileStatus.pending)]

/-- Modelled from the spec: recordOutcome of the Status Store (spec section
4.1): sets the status of the path unconditionally. -/
def recordOutcome : List (String × FileStatus) → String → FileStatus →
    List (String × FileStatus)
  | [], p, v => [(p, v)]
  | (q, st) :: rest, p, v =>
    if q = p then (p, v) :: rest else (q, st) :: recordOutcome rest p v

/-- Result of processing one dequeued path: the outcome signal, the store
afterwards, whether the external Upload Operation was invoked, and how many
status writes (recordOutcome calls) were performed. -/
structure ProcResult where
  outcome : UploadOutcome
  store : List (String × FileStatus)
  uploadInvoked : Bool
  statusWrites : Nat
deriving DecidableEq

/-- Modelled from the spec: processing of one dequeued path by the worker
pool (spec section 4.3 steps 1 to 6; utils.ConcurrentUploader is not among
the available sources). Step 1: if the file is missing or an ignore pattern
matches, emit ignored and stop with no store write. Step 2: if the stored
status is already Success, emit ignored and stop. Steps 3 to 6: upsert the
record as Pending, invoke the external Upload Operation, and record Success
with a completed signal or Failed with an error signal. -/
def processUpload (env : PoolEnv) (store : List (String × FileStatus)) (p : String) :
    ProcResult :=
  if env.fileExists p = false ∨ env.ignore p = true then
    ⟨UploadOutcome.ignored, store, false, 0⟩
  else if lookupStatus store p = some FileStatus.success then
    ⟨UploadOutcome.ignored, store, false, 0⟩
  else
    let st1 := upsertPending store p
    if env.uploadOk p then
      ⟨UploadOutcome.completed, recordOutcome st1 p FileStatus.success, true, 1⟩
    else
      ⟨UploadOutcome.errored, recordOutcome st1 p FileStatus.failed, true, 1⟩

/-- Queue length and number of in-flight uploads of the worker pool. -/
structure PoolState where
  queued : Nat
  inFlight : Nat
deriving DecidableEq

/-- Modelled from the spec: the transitions of the worker pool with
configured concurrency N (spec sections 4.3 and 5; utils.ConcurrentUploader
is not among the available sources): enqueue is accepted unconditionally; a
queued path is dispatched to an upload only while fewer than N uploads are in
flight; a finishing upload leaves the in-flight set. -/
inductive PoolStep (N : Nat) : PoolState → PoolState → Prop
  | enqueue (q f : Nat) : PoolStep N ⟨q, f⟩ ⟨q + 1, f⟩
  | dispatch (q f : Nat) : f < N → PoolStep N ⟨q + 1, f⟩ ⟨q, f + 1⟩
  | finish (q f : Nat) : PoolStep N ⟨q, f + 1⟩ ⟨q, f⟩

/-- States of the worker pool reachable from the idle initial state by any
interleaving of its transitions. -/
inductive PoolReachable (N : Nat) : PoolState → Prop
  | init : PoolReachable N ⟨0, 0⟩
  | step {s s1 : PoolState} : PoolReachable N s → PoolStep N s s1 → PoolReachable N s1

/-- Concrete environment: a single regular file named a, no ignore patterns,
recursive watching, eventDelay of three seconds. -/
def envA : CoEnv :=
  ⟨fun q => if q = "a" then some false else none, fun q => [(q, false)], [], true, 3⟩

/-- Concrete environment: directories d and d/s, an ignore pattern matching
exactly d, recursive watching, eventDelay of three seconds. -/
def envB : CoEnv :=
  ⟨fun q => if q = "d" ∨ q = "d/s" then some true else none,
   fun q => if q = "d" then [("d", true), ("d/s", true)] else [(q, true)],
   [fun q => q == "d"], true, 3⟩

/-- Concrete environment: a single directory d, no ignore patterns, recursive
watching, eventDelay of three seconds. -/
def envC : CoEnv :=
  ⟨fun q => if q = "d" then some true else none, fun q => [(q, true)], [], true, 3⟩

/-- Concrete pool environment: every path exists, none ignored, every upload
succeeds. -/
def envP : PoolEnv := ⟨fun _ => true, fun _ => false, fun _ => true⟩

/-- A burst tail relative to a previous notification time: every listed
notification (time and operation) comes no earlier than its predecessor and
strictly less than eventDelay after it, and none is a Remove or Rename. -/
def wcChain (delay : Nat) : Nat → List (Nat × FsOp) → Prop
  | _, [] => True
  | t, e :: rest => t ≤ e.1 ∧ e.1 < t + delay ∧ isDelete e.2 = false ∧ wcChain delay e.1 rest

/-- Time of the last notification of a burst, the head time being t0. -/
def lastTime : Nat → List (Nat × FsOp) → Nat
  | t, [] => t
  | _, e :: rest => lastTime e.1 rest

lemma lookupStatus_deleteRecord (st : List (String × FileStatus)) (p : String) :
    lookupStatus (deleteRecord st p) p = none := by
  induction st with
  | nil => rfl
  | cons r rest ih =>
    obtain ⟨q, v⟩ := r
    by_cases h : q = p
    · simp [deleteRecord, h, ih]
    · simp [deleteRecord, lookupStatus, h, ih]

lemma deleteRecord_idem (st : List (String × FileStatus)) (p : String) :
    deleteRecord (deleteRecord st p) p = deleteRecord st p := by
  induction st with
  | nil => rfl
  | cons r rest ih =>
    obtain ⟨q, v⟩ := r
    by_cases h : q = p
    · simp [deleteRecord, h, ih]
    · simp [deleteRecord, h, ih]

lemma lookupStatus_recordOutcome (st : List (String × FileStatus)) (p : String)
    (v : FileStatus) : lookupStatus (recordOutcome st p v) p = some v := by
  induction st with
  | nil => simp [recordOutcome, lookupStatus]
  | cons r rest ih =>
    obtain ⟨q, w⟩ := r
    by_cases h : q = p
    · simp [recordOutcome, lookupStatus, h]
    · simp [recordOutcome, lookupStatus, h, ih]

/-- A notification inside a burst window, for a path holding an armed timer
that is not yet due, postpones that timer: the due-timer pass fires nothing
and handleFileChange resets the deadline. -/
lemma coStep_armed (env : CoEnv) (p : String) (t0 t1 : Nat) (op : FsOp)
    (hlt : t1 < t0 + env.eventDelay) (hop : isDelete op = false) :
    coStep env ⟨[(p, ⟨t0 + env.eventDelay, true⟩)], [], [], [], []⟩ (t1, ⟨p, op⟩)
      = ⟨[(p, ⟨t1 + env.eventDelay, true⟩)], [], [], [], []⟩ := by
  have hdue : ¬(t0 + env.eventDelay ≤ t1) := by omega
  simp [coStep, fireDue, fireDueList, hdue, handleFileChange, lookupTimer, setTimer, hop]

/-- Folding a burst tail over a state holding a single armed timer for the
path leaves a single armed timer whose deadline is eventDelay after the last
notification. -/
lemma burst_fold (env : CoEnv) (p : String) (evs : List (Nat × FsOp)) :
    ∀ t0 : Nat, wcChain env.eventDelay t0 evs →
      List.foldl (coStep env) ⟨[(p, ⟨t0 + env.eventDelay, true⟩)], [], [], [], []⟩
          (evs.map (fun e => (e.1, ⟨p, e.2⟩)))
        = ⟨[(p, ⟨lastTime t0 evs + env.eventDelay, true⟩)], [], [], [], []⟩ := by
  induction evs with
  | nil => intro t0 _; simp [lastTime]
  | cons e rest ih =>
    intro t0 h
    simp only [wcChain] at h
    obtain ⟨-, h2, h3, h4⟩ := h
    simp only [List.map_cons, List.foldl_cons]
    rw [coStep_armed env p t0 e.1 e.2 h2 h3]
    simpa [lastTime] using ih e.1 h4

/-- The first notification of a burst, from the initial state, arms a timer
for eventDelay later. -/
lemma coStep_initial (env : CoEnv) (p : String) (t : Nat) (op : FsOp)
    (hop : isDelete op = false) :
    coStep env initState (t, ⟨p, op⟩)
      = ⟨[(p, ⟨t + env.eventDelay, true⟩)], [], [], [], []⟩ := by
  simp [coStep, fireDue, fireDueList, initState, handleFileChange, lookupTimer, setTimer, hop]

/-- Letting the single armed timer of a path fire emits one upload at its
deadline when the path is an existing non-ignored non-directory. -/
lemma flush_single_armed (env : CoEnv) (p : String) (d : Nat)
    (hstat : env.stat p = some false) (hig : checkIgnore env p = false) :
    flushTimers env ⟨[(p, ⟨d, true⟩)], [], [], [], []⟩
      = ⟨[(p, ⟨d, false⟩)], [], [], [(d, p)], []⟩ := by
  simp [flushTimers, flushList, fireBody, hstat, hig]

/-- Claim C1: with a record for path a in the store, a write notification at
time 0 arms a timer (deadline 3) and a remove notification at time 1, while
that timer is still pending, stops the timer and emits no upload — but,
against the claim, performs no Status Store deletion at all: the record
survives and the deletions log stays empty, because the record-deletion
branch of handleFileChange sits in an else-if that is unreachable whenever a
timers-map entry for the path exists. -/
theorem c1_remove_during_pending_timer :
    runTraceFrom envA ⟨[], [("a", FileStatus.success)], [], [], []⟩
        [(0, ⟨"a", FsOp.write⟩), (1, ⟨"a", FsOp.remove⟩)]
      = ⟨[("a", ⟨3, false⟩)], [("a", FileStatus.success)], [], [], []⟩ := by
  decide

/-- Claim C2, counterexample: a burst of one create notification for the
directory d emits zero upload signals (the timer-fire handler registers d as
a watch root instead), so a burst does not always produce exactly one upload
emission. -/
theorem c2_cex_directory_burst :
    (runTrace envC [(0, ⟨"d", FsOp.create⟩)]).uploads = [] ∧
    (runTrace envC [(0, ⟨"d", FsOp.create⟩)]).watches = ["d"] := by
  decide

/-- Claim C2, amended: for every path with no prior notifications (no
timers-map entry, here: starting from the initial state) that at fire time
exists, is not a directory, and matches no ignore pattern, every burst of one
or more write/create notifications in which consecutive notifications are
separated by less than eventDelay produces exactly one upload emission,
timed eventDelay after the last notification of the burst. -/
theorem c2_debounce_single_upload (env : CoEnv) (p : String) (e0 : Nat × FsOp)
    (evs : List (Nat × FsOp))
    (hstat : env.stat p = some false) (hig : checkIgnore env p = false)
    (hop0 : isDelete e0.2 = false) (hchain : wcChain env.eventDelay e0.1 evs) :
    (runTrace env ((e0 :: evs).map (fun e => (e.1, ⟨p, e.2⟩)))).uploads
      = [(lastTime e0.1 evs + env.eventDelay, p)] := by
  simp only [runTrace, runTraceFrom, List.map_cons, List.foldl_cons]
  rw [coStep_initial env p e0.1 e0.2 hop0, burst_fold env p evs e0.1 hchain,
    flush_single_armed env p (lastTime e0.1 evs + env.eventDelay) hstat hig]

/-- Claim C2, witness: a burst of a write at time 0 and a create at time 1
for file a under envA (eventDelay 3) produces exactly the upload emission
(4, a). -/
theorem c2_debounce_single_upload_witness :
    (runTrace envA [(0, ⟨"a", FsOp.write⟩), (1, ⟨"a", FsOp.create⟩)]).uploads
      = [(4, "a")] :=
  c2_debounce_single_upload envA "a" (0, FsOp.write) [(1, FsOp.create)]
    (by decide) (by decide) (by decide)
    ⟨by decide, by decide, by decide, trivial⟩

/-- Claim C3: the retry-failed scan enqueues exactly the paths whose stored
status is not Success (a path is enqueued iff it was already queued or has a
record with a non-Success status), only reads the store, and on records
A Success, B Failed, C Pending enqueues exactly B and C. -/
theorem c3_retry_scan :
    (∀ (store : List (String × FileStatus)) (queue : List String) (p : String),
        p ∈ (reuploadFailedFiles true store queue).1 ↔
          p ∈ queue ∨ ∃ st, (p, st) ∈ store ∧ st ≠ FileStatus.success) ∧
    (∀ (store : List (String × FileStatus)) (queue : List String),
        (reuploadFailedFiles true store queue).2 = store) ∧
    (reuploadFailedFiles true
        [("A", FileStatus.success), ("B", FileStatus.failed), ("C", FileStatus.pending)]
        []).1 = ["B", "C"] := by
  refine ⟨fun store queue p => ?_, fun store queue => rfl, by decide⟩
  have hfst : (reuploadFailedFiles true store queue).1 = queue ++ listNotSuccess store := rfl
  rw [hfst]
  simp only [List.mem_append, listNotSuccess, List.mem_map, List.mem_filter,
    decide_eq_true_eq]
  constructor
  · rintro (hq | ⟨⟨q, st⟩, ⟨hmem, hst⟩, rfl⟩)
    · exact Or.inl hq
    · exact Or.inr ⟨st, hmem, hst⟩
  · rintro (hq | ⟨st, hmem, hst⟩)
    · exact Or.inl hq
    · exact Or.inr ⟨⟨p, st⟩, ⟨hmem, hst⟩, rfl⟩

/-- Claim C6: a write for file a at time 0 settles at time 3 (one upload
emitted), yet the timers-map entry for a is not destroyed: it survives as an
expired timer, and a later write at time 10 — well outside any debounce
window — arms no fresh timer and leads to no second upload, because Stop on
the expired timer returns false and Reset is skipped. The final state after
both writes holds exactly one upload, emitted at time 3. -/
theorem c6_timer_entry_not_destroyed :
    runTrace envA [(0, ⟨"a", FsOp.write⟩), (10, ⟨"a", FsOp.write⟩)]
      = ⟨[("a", ⟨3, false⟩)], [], [], [(3, "a")], []⟩ := by
  decide

/-- Claim C7: the outcome-reporter loop, given the stop signal followed by a
completed-upload event, acknowledges the stop (one ack) but then keeps
running and consumes the completed event (counter becomes 1), because break
inside a Go select exits only the select and not the for loop; the claim
requires no further outcome event to be consumed after the
acknowledgement. -/
theorem c7_reporter_consumes_after_stop :
    handleUploaderEvents ⟨0, 0, 0, 0⟩ [ReporterInput.stop, ReporterInput.completed "a"]
      = ⟨1, 0, 0, 1⟩ := by
  decide

/-- Claim C8, counterexample: on timer fire for the directory d, which an
ignore pattern matches, with recursive watching enabled and a non-ignored
subdirectory d/s, the handler neither registers d as a watch root (although d
is a directory and recursion is enabled) nor drops silently (a watch for d/s
is added): the resulting watch list is exactly d/s, with no upload
emitted. -/
theorem c8_cex_ignored_directory :
    (fireBody envB initState "d" 5).watches = ["d/s"] ∧
    (fireBody envB initState "d" 5).uploads = [] := by
  decide

/-- Watch roots a recursive startToWatch call on p adds: the non-ignored
directories of the walk of p. -/
def watchAdditions (env : CoEnv) (p : String) : List String :=
  ((env.subtree p).filter (fun e => e.2 && !(checkIgnore env e.1))).map (fun e => e.1)

/-- Claim C8, amended: on timer fire for path p, (i) if p exists as a
non-directory matching no ignore pattern, exactly one upload is emitted;
(ii) if p exists and is a directory or matches an ignore pattern, and
recursive watching is enabled, no upload is emitted and exactly the
non-ignored directories of the walk of p (p itself only when it is a
non-ignored directory) are registered as watch roots; (iii) if p no longer
exists, nothing happens; (iv) if p exists and is a directory or ignored, and
recursive watching is disabled, nothing happens. -/
theorem c8_fire_cases (env : CoEnv) (s : CoState) (p : String) (t : Nat) :
    (env.stat p = some false → checkIgnore env p = false →
      fireBody env s p t = { s with uploads := s.uploads ++ [(t, p)] }) ∧
    (∀ d : Bool, env.stat p = some d → (d = true ∨ checkIgnore env p = true) →
      env.watchRecursively = true →
      fireBody env s p t = { s with watches := s.watches ++ watchAdditions env p }) ∧
    (env.stat p = none → fireBody env s p t = s) ∧
    (∀ d : Bool, env.stat p = some d → (d = true ∨ checkIgnore env p = true) →
      env.watchRecursively = false → fireBody env s p t = s) := by
  refine ⟨fun h1 h2 => ?_, fun d h1 h2 h3 => ?_, fun h => ?_, fun d h1 h2 h3 => ?_⟩
  · simp [fireBody, h1, h2]
  · have hcond : (!d && !(checkIgnore env p)) = false := by
      rcases h2 with h2 | h2 <;> simp [h2]
    simp [fireBody, h1, hcond, h3, startToWatch, watchAdditions]
  · simp [fireBody, h]
  · have hcond : (!d && !(checkIgnore env p)) = false := by
      rcases h2 with h2 | h2 <;> simp [h2]
    simp [fireBody, h1, hcond, h3]

/-- Claim C8, witness: firing the timer of the existing non-ignored file a in
envA emits exactly the upload (7, a). -/
theorem c8_fire_cases_witness :
    fireBody envA initState "a" 7 = { initState with uploads := [(7, "a")] } :=
  (c8_fire_cases envA initState "a" 7).1 (by decide) (by decide)

/-- State with an expired (fired, no longer armed) timers-map entry for file
a and a Success record for a. -/
def c9state : CoState := ⟨[("a", ⟨3, false⟩)], [("a", FileStatus.success)], [], [], []⟩

/-- Claim C9, counterexample: with an expired timers-map entry for the
non-ignored file a — so no timer for a is pending — a remove notification
does not delete the record for a: the Success record survives, because the
deletion branch of handleFileChange is unreachable while any timers-map entry
for the path exists. -/
theorem c9_cex_expired_entry_blocks_delete :
    lookupTimer c9state.timers "a" = some ⟨3, false⟩ ∧
    lookupStatus (handleFileChange envA 10 ⟨"a", FsOp.remove⟩ c9state).store "a"
      = some FileStatus.success := by
  decide

/-- Claim C9, amended: for a non-ignored path with no timers-map entry at all
(pending or expired), a remove/rename notification leaves no record for the
path in the store, whether or not one existed beforehand, and a second
remove/rename notification for the same path leaves the store exactly as the
first did. -/
theorem c9_delete_idempotent (env : CoEnv) (s : CoState) (t t1 : Nat) (p : String)
    (op op1 : FsOp) (hop : isDelete op = true) (hop1 : isDelete op1 = true)
    (htimer : lookupTimer s.timers p = none) (hig : checkIgnore env p = false) :
    lookupStatus (handleFileChange env t ⟨p, op⟩ s).store p = none ∧
    (handleFileChange env t1 ⟨p, op1⟩ (handleFileChange env t ⟨p, op⟩ s)).store
      = (handleFileChange env t ⟨p, op⟩ s).store := by
  have h1 : handleFileChange env t ⟨p, op⟩ s
      = { s with store := deleteRecord s.store p, deletions := s.deletions ++ [p] } := by
    simp [handleFileChange, htimer, hop, hig]
  constructor
  · rw [h1]
    exact lookupStatus_deleteRecord s.store p
  · rw [h1]
    simp [handleFileChange, htimer, hop1, hig, deleteRecord_idem]

/-- Claim C9, witness: for file a with a Pending record, no timers-map entry
and no matching ignore pattern, a remove at time 0 leaves no record for a,
and a rename at time 1 leaves the store exactly as the remove did. -/
theorem c9_delete_idempotent_witness :
    lookupStatus (handleFileChange envA 0 ⟨"a", FsOp.remove⟩
        ⟨[], [("a", FileStatus.pending)], [], [], []⟩).store "a" = none ∧
    (handleFileChange envA 1 ⟨"a", FsOp.rename⟩ (handleFileChange envA 0 ⟨"a", FsOp.remove⟩
        ⟨[], [("a", FileStatus.pending)], [], [], []⟩)).store
      = (handleFileChange envA 0 ⟨"a", FsOp.remove⟩
        ⟨[], [("a", FileStatus.pending)], [], [], []⟩).store :=
  c9_delete_idempotent envA ⟨[], [("a", FileStatus.pending)], [], [], []⟩ 0 1 "a"
    FsOp.remove FsOp.rename (by decide) (by decide) (by decide) (by decide)

/-- Claim C10: a remove or rename notification for a path that an ignore
pattern matches leaves the status store completely unchanged and performs no
deletion, from every state. -/
theorem c10_ignored_delete_frame (env : CoEnv) (s : CoState) (t : Nat) (p : String)
    (op : FsOp) (hop : isDelete op = true) (hig : checkIgnore env p = true) :
    (handleFileChange env t ⟨p, op⟩ s).store = s.store ∧
    (handleFileChange env t ⟨p, op⟩ s).deletions = s.deletions := by
  cases h : lookupTimer s.timers p with
  | some timer => constructor <;> simp [handleFileChange, h, hop]
  | none => constructor <;> simp [handleFileChange, h, hop, hig]

/-- Claim C10, witness: a remove notification for the ignored directory d in
envB changes neither the store nor the deletions log. -/
theorem c10_ignored_delete_frame_witness :
    (handleFileChange envB 0 ⟨"d", FsOp.remove⟩ initState).store = initState.store ∧
    (handleFileChange envB 0 ⟨"d", FsOp.remove⟩ initState).deletions
      = initState.deletions :=
  c10_ignored_delete_frame envB initState 0 "d" FsOp.remove (by decide) (by decide)

/-- Claim C4: for a fresh existing non-ignored path whose upload succeeds,
the first processing invokes the upload, performs exactly one status write
and records Success; each further processing of the same path emits an
ignored outcome, does not invoke the external Upload Operation, performs no
status write and leaves the store untouched, so three enqueues yield exactly
one status write in total. -/
theorem c4_success_dedup (env : PoolEnv) (store : List (String × FileStatus))
    (p : String) (hex : env.fileExists p = true) (hig : env.ignore p = false)
    (hok : env.uploadOk p = true) (hfresh : lookupStatus store p = none) :
    (processUpload env store p).outcome = UploadOutcome.completed ∧
    (processUpload env store p).uploadInvoked = true ∧
    (processUpload env store p).statusWrites = 1 ∧
    lookupStatus (processUpload env store p).store p = some FileStatus.success ∧
    processUpload env (processUpload env store p).store p
      = ⟨UploadOutcome.ignored, (processUpload env store p).store, false, 0⟩ ∧
    (processUpload env store p).statusWrites
      + (processUpload env (processUpload env store p).store p).statusWrites
      + (processUpload env (processUpload env (processUpload env store p).store p).store
          p).statusWrites = 1 := by
  have h1 : processUpload env store p
      = ⟨UploadOutcome.completed,
         recordOutcome (upsertPending store p) p FileStatus.success, true, 1⟩ := by
    simp [processUpload, hex, hig, hfresh, hok]
  have h4 : lookupStatus (processUpload env store p).store p = some FileStatus.success := by
    rw [h1]
    exact lookupStatus_recordOutcome _ p _
  have hdup : ∀ st : List (String × FileStatus), lookupStatus st p = some FileStatus.success →
      processUpload env st p = ⟨UploadOutcome.ignored, st, false, 0⟩ := by
    intro st hst
    simp [processUpload, hex, hig, hst]
  have h5 := hdup _ h4
  refine ⟨by rw [h1], by rw [h1], by rw [h1], h4, h5, ?_⟩
  simp only [h5]
  simp [h1]

/-- Claim C4, witness: after a first successful upload of the fresh path x
under envP, processing x again emits an ignored outcome, does not invoke the
upload, writes no status and leaves the store untouched. -/
theorem c4_success_dedup_witness :
    processUpload envP (processUpload envP [] "x").store "x"
      = ⟨UploadOutcome.ignored, (processUpload envP [] "x").store, false, 0⟩ :=
  (c4_success_dedup envP [] "x" rfl rfl rfl rfl).2.2.2.2.1

/-- Claim C5: in the worker pool with configured positive concurrency N,
every state reachable from the idle initial state by any interleaving of
enqueue, dispatch and finish transitions has at most N uploads in flight. -/
theorem c5_inflight_bounded (N : Nat) (_hN : 0 < N) (s : PoolState)
    (h : PoolReachable N s) : s.inFlight ≤ N := by
  induction h with
  | init => exact Nat.zero_le N
  | step hr hstep ih =>
    cases hstep with
    | enqueue q f => exact ih
    | dispatch q f hf => exact hf
    | finish q f => exact Nat.le_of_succ_le ih

/-- Claim C5, witness: with N = 2, the state reached by two enqueues followed
by two dispatches has two uploads in flight, within the bound of 2. -/
theorem c5_inflight_bounded_witness : (⟨0, 2⟩ : PoolState).inFlight ≤ 2 :=
  c5_inflight_bounded 2 (by decide) ⟨0, 2⟩
    (PoolReachable.step
      (PoolReachable.step
        (PoolReachable.step
          (PoolReachable.step PoolReachable.init (PoolStep.enqueue 0 0))
          (PoolStep.enqueue 1 0))
        (PoolStep.dispatch 1 0 (by decide)))
      (PoolStep.dispatch 0 1 (by decide)))
